import Mathlib

/-!
Shallow embedding of the mini-sshd transport core (src/decoding.rs and
src/session/mod.rs), with the pieces of the repository that are not in the
provided sources (encoding.rs, types.rs, the crypto module) modelled from the
specification where a claim needs them.

Modelling conventions:
* bytes are `Nat`s; wherever Rust's `u8`/`u32` types guarantee a range, the
  definitions apply the corresponding truncation (`% 256`, `% 2^32`) exactly
  where a cast occurs in the source;
* a TCP stream is a `List Nat` of the bytes that will be read from it, and
  `read_exact` fails when fewer bytes than requested remain;
* fallible Rust code (`anyhow::Result`) returns `RResult`, whose third
  constructor models a Rust panic (`unwrap` on `None`/empty, out-of-bounds
  slicing, and checked-arithmetic overflow);
* `u32`/`usize` subtraction is modelled as checked (panicking on underflow),
  matching the overflow-checking semantics under which the repository is run;
  the two sequence counters are modelled with the wrapping-mod-2^32 semantics
  that the specification assigns to them.
-/

/-- Outcome of running a piece of Rust code: a value, a recoverable
`anyhow` error (identified by its message), or a panic. -/
inductive RResult (α : Type) where
  | ok : α → RResult α
  | err : String → RResult α
  | panic : RResult α
deriving DecidableEq, Repr

/-- 2^32, the modulus of the `u32` sequence counters. -/
def u32Mod : Nat := 4294967296

/-- Checked natural subtraction: Rust unsigned `a - b`, panicking (`none`)
on underflow. -/
def checked_sub (a b : Nat) : Option Nat :=
  if b ≤ a then some (a - b) else none

/-- `Read::read_exact` on a byte stream: take exactly `n` bytes or fail. -/
def read_exact (s : List Nat) (n : Nat) : Option (List Nat × List Nat) :=
  if n ≤ s.length then some (s.take n, s.drop n) else none

/-- The value of a 4-byte big-endian length field (`u32::from_be_bytes`);
each byte is reduced mod 256 as the Rust `u8` type guarantees. -/
def be32val (l : List Nat) : Nat :=
  (l.getD 0 0 % 256) * 16777216 + (l.getD 1 0 % 256) * 65536 +
    (l.getD 2 0 % 256) * 256 + (l.getD 3 0 % 256)

/-- `u8_array_to_u32` from src/decoding.rs: errors unless given exactly
four bytes, otherwise decodes them big-endian. -/
def u8_array_to_u32 (a : List Nat) : RResult Nat :=
  if a.length = 4 then .ok (be32val a)
  else .err "Cannot convert u8 array to u32"

/-- Big-endian `u32::to_be_bytes` of `n` (the `as u32` truncation is absorbed
by the per-byte `% 256`). -/
def u32_to_u8_array (n : Nat) : List Nat :=
  [n / 16777216 % 256, n / 65536 % 256, n / 256 % 256, n % 256]

/-- Modelled from the spec: `encode_string` from the missing encoding.rs
(RFC 4251 string encoding) - a 4-byte big-endian length field followed by the
raw bytes. -/
def encode_string (b : List Nat) : List Nat :=
  u32_to_u8_array b.length ++ b

/-- A buffer of fixed length `n` that a decrypter writes into
(`vec![0u8; n]` then `Crypter::update`): the decrypter output truncated or
zero-padded to the buffer length. -/
def padOrTrim (n : Nat) (l : List Nat) : List Nat :=
  l.take n ++ List.replicate (n - l.length) 0

/-- `get_payload` from src/decoding.rs: `packet` is the decrypted packet
without the length field; its first byte is `padding_length`
(`.first().unwrap()`, panicking on an empty packet), the payload is the next
`packet_length - padding_length - 1` bytes (checked `u32` arithmetic), the
padding is discarded, and a non-zero `bytes_left` is a framing error. -/
def get_payload (packet : List Nat) (packet_length : Nat) : RResult (List Nat) :=
  match packet with
  | [] => .panic
  | padding_length :: rest =>
    match checked_sub packet_length padding_length with
    | none => .panic
    | some d =>
      match checked_sub d 1 with
      | none => .panic
      | some n1 =>
        let payload := rest.take n1
        let after_payload := rest.drop n1
        let _random_padding := after_payload.take padding_length
        match checked_sub packet_length 1 with
        | none => .panic
        | some m1 =>
          match checked_sub m1 n1 with
          | none => .panic
          | some m2 =>
            match checked_sub m2 padding_length with
            | none => .panic
            | some bytes_left =>
              if bytes_left ≠ 0 then .err "Did not decode entire packet"
              else .ok payload

/-- `DecodedPacket` from src/decoding.rs: the decoded payload bytes,
message type first. -/
structure DecodedPacket where
  raw : List Nat
deriving DecidableEq, Repr

/-- Rust slice `&l[i..]`: panics when `i` exceeds the length. -/
def slice_from (l : List Nat) (i : Nat) : RResult (List Nat) :=
  if i ≤ l.length then .ok (l.drop i) else .panic

/-- `decode_packet_unencrypted` from src/decoding.rs: a 4-byte big-endian
`packet_length`, then exactly `packet_length` bytes handed to `get_payload`. -/
def decode_packet_unencrypted (stream : List Nat) : RResult DecodedPacket :=
  match read_exact stream 4 with
  | none => .err "Failed reading packet_length"
  | some (packet_length_bytes, s1) =>
    match u8_array_to_u32 packet_length_bytes with
    | .err e => .err e
    | .panic => .panic
    | .ok packet_length =>
      match read_exact s1 packet_length with
      | none => .err "Failed reading packet"
      | some (packet, _) =>
        match get_payload packet packet_length with
        | .ok payload => .ok ⟨payload⟩
        | .err e => .err e
        | .panic => .panic

/-- Modelled from the spec: the `MessageType` wire values used by this core
(types.rs is not among the provided sources) - disconnect=1, ignore=2,
unimplemented=3, debug=4, kexinit=20, newkeys=21, ECDH init=30,
ECDH reply=31. -/
def msg_type_values : List Nat := [1, 2, 3, 4, 20, 21, 30, 31]

/-- `u8_to_MessageType` from src/decoding.rs: `MessageType::from_u8`, an
error for a byte that is not a `MessageType` value (the spec's "reject
unknown codes at the decode boundary"). -/
def u8_to_MessageType (b : Nat) : RResult Nat :=
  if b ∈ msg_type_values then .ok b
  else .err ("Failed to cast " ++ toString b ++ " into MessageType")

/-- `DecodedPacket::message_type`: an error on an empty payload, otherwise
the first payload byte converted through `u8_to_MessageType`. -/
def DecodedPacket.message_type (p : DecodedPacket) : RResult Nat :=
  match p.raw with
  | [] => .err "Payload is empty"
  | b :: _ => u8_to_MessageType b

/-- `DecodedPacket::payload`: the payload without the message type, obtained
by the slice `&self.payload[1..]` (which panics when the payload is empty). -/
def DecodedPacket.payload (p : DecodedPacket) : RResult (List Nat) :=
  slice_from p.raw 1

/-- `DecodedPacket::payload_with_msg_type`. -/
def DecodedPacket.payload_with_msg_type (p : DecodedPacket) : List Nat :=
  p.raw

/-- Strict UTF-8 decoding of a byte list, as `String::from_utf8` performs:
1-4 byte sequences, with overlong encodings, surrogates and values beyond
U+10FFFF rejected. -/
def utf8Decode : List Nat → Option (List Char)
  | [] => some []
  | b :: rest =>
    if b < 0x80 then
      match utf8Decode rest with
      | none => none
      | some cs => some (Char.ofNat b :: cs)
    else if b < 0xC2 then none
    else if b < 0xE0 then
      match rest with
      | c1 :: rest2 =>
        if 0x80 ≤ c1 ∧ c1 < 0xC0 then
          match utf8Decode rest2 with
          | none => none
          | some cs => some (Char.ofNat ((b - 0xC0) * 0x40 + (c1 - 0x80)) :: cs)
        else none
      | [] => none
    else if b < 0xF0 then
      match rest with
      | c1 :: c2 :: rest2 =>
        if (0x80 ≤ c1 ∧ c1 < 0xC0) ∧ (0x80 ≤ c2 ∧ c2 < 0xC0) then
          let cp := (b - 0xE0) * 0x1000 + (c1 - 0x80) * 0x40 + (c2 - 0x80)
          if 0x800 ≤ cp ∧ (cp < 0xD800 ∨ 0xDFFF < cp) then
            match utf8Decode rest2 with
            | none => none
            | some cs => some (Char.ofNat cp :: cs)
          else none
        else none
      | _ => none
    else if b < 0xF5 then
      match rest with
      | c1 :: c2 :: c3 :: rest2 =>
        if (0x80 ≤ c1 ∧ c1 < 0xC0) ∧ (0x80 ≤ c2 ∧ c2 < 0xC0) ∧
            (0x80 ≤ c3 ∧ c3 < 0xC0) then
          let cp := (b - 0xF0) * 0x40000 + (c1 - 0x80) * 0x1000 +
            (c2 - 0x80) * 0x40 + (c3 - 0x80)
          if 0x10000 ≤ cp ∧ cp ≤ 0x10FFFF then
            match utf8Decode rest2 with
            | none => none
            | some cs => some (Char.ofNat cp :: cs)
          else none
        else none
      | _ => none
    else none

/-- Rust `str::split(sep)` on a character separator: the list of (possibly
empty) chunks between occurrences of `sep`; on an empty input it yields one
empty chunk, exactly as `"".split(sep)` does. -/
def splitChar (sep : Char) : List Char → List (List Char)
  | [] => [[]]
  | c :: rest =>
    match splitChar sep rest with
    | [] => [[c]]
    | h :: t => if c = sep then [] :: h :: t else (c :: h) :: t

namespace PayloadReader

/-- `PayloadReader::next_name_list` (RFC 4251 § 5): take 4 length bytes
(erring when fewer remain), take that many value bytes (the iterator clamps
to what is available), decode them as UTF-8 and split on commas. Returns the
result together with the bytes left in the reader. -/
def next_name_list (p : List Nat) : RResult (List (List Char)) × List Nat :=
  let length_bytes := p.take 4
  let r1 := p.drop 4
  match u8_array_to_u32 length_bytes with
  | .err e => (.err e, r1)
  | .panic => (.panic, r1)
  | .ok length =>
    let value_bytes := r1.take length
    let r2 := r1.drop length
    match utf8Decode value_bytes with
    | none => (.err "Failed to decode name-list to string", r2)
    | some value => (.ok (splitChar ',' value), r2)

/-- `PayloadReader::next_string` (RFC 4251 § 5): take 4 length bytes (erring
when fewer remain) and then that many raw bytes, the iterator clamping to
what is available. -/
def next_string (p : List Nat) : RResult (List Nat) × List Nat :=
  let length_bytes := p.take 4
  let r1 := p.drop 4
  match u8_array_to_u32 length_bytes with
  | .err e => (.err e, r1)
  | .panic => (.panic, r1)
  | .ok length => (.ok (r1.take length), r1.drop length)

/-- `PayloadReader::next_byte`: `Iterator::next`. -/
def next_byte (p : List Nat) : Option Nat × List Nat :=
  match p with
  | [] => (none, [])
  | b :: r => (some b, r)

/-- `PayloadReader::next_n_bytes`: `take(n).collect()`, clamping to the
available bytes. -/
def next_n_bytes (n : Nat) (p : List Nat) : List Nat × List Nat :=
  (p.take n, p.drop n)

end PayloadReader

/-- Modelled from the spec (4.2, the crypto module is not among the provided
sources): `verify_mac` recomputes `MAC(key, sequence_number ∥ message)` with
the negotiated MAC function and compares it with the received tag. The MAC
function itself is a parameter `macfn`. -/
def verify_mac (macfn : List Nat → List Nat → List Nat) (seq : Nat)
    (key : List Nat) (message : List Nat) (tag : List Nat) : Bool :=
  macfn key (u32_to_u8_array seq ++ message) == tag

/-- `decode_packet_encrypted` from src/decoding.rs, parameterised by the
negotiated block size, MAC size, the (stateful) decrypter `upd` (state in,
ciphertext in; plaintext and new state out - `Crypter::update` writes into a
caller-sized buffer, hence `padOrTrim`), the MAC function and integrity key,
and the incoming sequence number: read one block, decrypt it to learn
`packet_length`, read and decrypt the remaining
`packet_length - (block_size - 4)` bytes, read a MAC-sized trailer, verify
the MAC over the sequence number and the decrypted packet encoded as a
length-prefixed string, and strip the padding with `get_payload`. -/
def decode_packet_encrypted (block_size mac_len : Nat)
    (upd : List Nat → List Nat → List Nat × List Nat) (dst0 : List Nat)
    (macfn : List Nat → List Nat → List Nat) (ikey : List Nat) (seq : Nat)
    (stream : List Nat) : RResult DecodedPacket :=
  if stream.length < block_size then .err "Failed reading first block"
  else
    let first_block := stream.take block_size
    let s1 := stream.drop block_size
    let first_block_dec := padOrTrim block_size (upd dst0 first_block).fst
    if block_size < 4 then .panic
    else
      let packet_length := be32val (first_block_dec.take 4)
      if packet_length < block_size - 4 then .panic
      else
        let rest_len := packet_length - (block_size - 4)
        if s1.length < rest_len then .err "Failed reading rest of packet"
        else
          let rest_enc := s1.take rest_len
          let s2 := s1.drop rest_len
          let rest_dec := padOrTrim rest_len (upd (upd dst0 first_block).snd rest_enc).fst
          let packet_dec := first_block_dec.drop 4 ++ rest_dec
          if s2.length < mac_len then .err "Failed reading mac"
          else
            let mac := s2.take mac_len
            if verify_mac macfn seq ikey (encode_string packet_dec) mac then
              match get_payload packet_dec packet_length with
              | .ok payload => .ok ⟨payload⟩
              | .err e => .err e
              | .panic => .panic
            else .err "MAC verification failed"

/-- `decode_packet` from src/decoding.rs: dispatch on whether the key
exchange has finished. -/
def decode_packet (kex_finished : Bool) (block_size mac_len : Nat)
    (upd : List Nat → List Nat → List Nat × List Nat) (dst0 : List Nat)
    (macfn : List Nat → List Nat → List Nat) (ikey : List Nat) (seq : Nat)
    (stream : List Nat) : RResult DecodedPacket :=
  if kex_finished then
    decode_packet_encrypted block_size mac_len upd dst0 macfn ikey seq stream
  else decode_packet_unencrypted stream

/-- The decrypted first block as `decode_packet_encrypted` computes it. -/
def fb_dec (block_size : Nat) (upd : List Nat → List Nat → List Nat × List Nat)
    (dst0 : List Nat) (stream : List Nat) : List Nat :=
  padOrTrim block_size (upd dst0 (stream.take block_size)).fst

/-- The `packet_length` field recovered from the decrypted first block. -/
def enc_packet_len (block_size : Nat)
    (upd : List Nat → List Nat → List Nat × List Nat) (dst0 : List Nat)
    (stream : List Nat) : Nat :=
  be32val ((fb_dec block_size upd dst0 stream).take 4)

/-- The full decrypted packet (padding-length byte, payload and padding; the
length field excluded), as `decode_packet_encrypted` assembles it. -/
def enc_body (block_size : Nat)
    (upd : List Nat → List Nat → List Nat × List Nat) (dst0 : List Nat)
    (stream : List Nat) : List Nat :=
  let first_block := stream.take block_size
  let pl := enc_packet_len block_size upd dst0 stream
  let rest_len := pl - (block_size - 4)
  let rest_enc := (stream.drop block_size).take rest_len
  (fb_dec block_size upd dst0 stream).drop 4 ++
    padOrTrim rest_len (upd (upd dst0 first_block).snd rest_enc).fst

/-- The MAC-sized trailer following the ciphertext on the wire. -/
def enc_tag (block_size mac_len : Nat)
    (upd : List Nat → List Nat → List Nat × List Nat) (dst0 : List Nat)
    (stream : List Nat) : List Nat :=
  ((stream.drop block_size).drop
    (enc_packet_len block_size upd dst0 stream - (block_size - 4))).take mac_len

/-- The two per-connection sequence counters of `Session`
(src/session/mod.rs), both `u32`. -/
structure SessState where
  out : Nat
  inc : Nat
deriving DecidableEq, Repr

/-- One wrapping `u32` counter update: `counter += len as u32` with the
wrapping-mod-2^32 semantics the specification assigns to the counters. -/
def bump (counter len : Nat) : Nat :=
  (counter + len % u32Mod) % u32Mod

/-- `Session::send_packet`: add the packet's byte length to
`outgoing_packet_sequence` (the write itself is modelled by returning the
packet alongside, where needed). -/
def send_packet (st : SessState) (packet : List Nat) : SessState :=
  ⟨bump st.out packet.length, st.inc⟩

/-- The disconnect reasons this core uses (types.rs is not among the
provided sources; modelled from the spec's list in 6). -/
inductive DisconnectReason where
  | byApplication
  | protocolVersionNotSupported
  | keyExchangeFailed
  | generic
deriving DecidableEq, Repr

/-- The numeric wire code of a disconnect reason (`reason as u8`), per the
standard SSH registry the spec points to. -/
def reason_code : DisconnectReason → Nat
  | .byApplication => 11
  | .protocolVersionNotSupported => 8
  | .keyExchangeFailed => 3
  | .generic => 2

/-- Modelled from the spec (4.1, encoding.rs is not among the provided
sources): `PacketBuilder::build` in unencrypted mode - message type byte,
then the caller-supplied fields, framed with a big-endian `packet_length`,
a padding-length byte and at least 4 bytes of padding chosen so that the
framed length is a multiple of the block size 8. Padding bytes are modelled
as zeros (their values never matter to the claims). -/
def build_packet (msg_type : Nat) (fields : List Nat) : List Nat :=
  let payload := msg_type :: fields
  let m := (5 + payload.length + 4) % 8
  let padding_length := if m = 0 then 4 else 4 + (8 - m)
  let packet_length := 1 + payload.length + padding_length
  u32_to_u8_array packet_length ++ [padding_length] ++ payload ++
    List.replicate padding_length 0

/-- The packet `Session::disconnect` builds: message type 1 (disconnect),
the reason code byte, an empty description string and the language tag
"en" (bytes 101, 110), both length-prefixed. -/
def disconnect_packet (r : DisconnectReason) : List Nat :=
  build_packet 1 ([reason_code r] ++ encode_string [] ++ encode_string [101, 110])

/-- `Session::disconnect`: build the disconnect packet and send it. -/
def disconnect (st : SessState) (r : DisconnectReason) : SessState × List Nat :=
  let packet := disconnect_packet r
  (send_packet st packet, packet)

/-- One inbound packet as the session sees it: the decoded payload together
with its wire byte length (`DecodedPacket::entire_packet_length`, whose
implementation lives in code outside the provided sources; modelled from the
spec as the exact wire byte length of the packet). -/
structure InPacket where
  raw : List Nat
  wire_len : Nat
deriving DecidableEq, Repr

/-- The type of the abstract handlers for `algorithm_negotiation` and
`key_exchange` (their modules are not among the provided sources): they may
mutate the session counters, send packets and fail. -/
def Handler : Type :=
  SessState → InPacket → SessState × List (List Nat) × RResult Unit

/-- A handler that does nothing, used to instantiate theorems at concrete
inputs. -/
def trivial_handler : Handler := fun st _ => (st, [], .ok ())

/-- `Session::handle_packet` (src/session/mod.rs): decode one packet (the
decode outcome is the `d` argument), add its wire length to
`incoming_packet_sequence`, read its message type, and dispatch:
disconnect (1) reports the by-application reason; ignore (2),
unimplemented (3) and debug (4) are no-ops; kexinit (20) and ECDH init (30)
run their handlers; every other recognised type is answered with exactly one
unimplemented packet carrying the updated incoming sequence number. -/
def handle_packet (hK hE : Handler) (st : SessState) (d : RResult InPacket) :
    SessState × List (List Nat) × RResult (Option DisconnectReason) :=
  match d with
  | .err e => (st, [], .err e)
  | .panic => (st, [], .panic)
  | .ok pkt =>
    let st1 : SessState := ⟨st.out, bump st.inc pkt.wire_len⟩
    match DecodedPacket.message_type ⟨pkt.raw⟩ with
    | .err e => (st1, [], .err e)
    | .panic => (st1, [], .panic)
    | .ok b =>
      if b = 1 then (st1, [], .ok (some .byApplication))
      else if b = 2 then (st1, [], .ok none)
      else if b = 3 then (st1, [], .ok none)
      else if b = 4 then (st1, [], .ok none)
      else if b = 20 then
        match hK st1 pkt with
        | (st2, sent, .ok _) => (st2, sent, .ok none)
        | (st2, sent, .err e) => (st2, sent, .err e)
        | (st2, sent, .panic) => (st2, sent, .panic)
      else if b = 30 then
        match hE st1 pkt with
        | (st2, sent, .ok _) => (st2, sent, .ok none)
        | (st2, sent, .err e) => (st2, sent, .err e)
        | (st2, sent, .panic) => (st2, sent, .panic)
      else
        let reply := build_packet 3 (u32_to_u8_array st1.inc)
        (send_packet st1 reply, [reply], .ok none)

/-- How the `Session::start` read loop ends. -/
inductive LoopResult where
  | finished
  | errored (e : String)
  | panicked
  | starved
deriving DecidableEq, Repr

/-- The read loop of `Session::start`, run against a finite script of decode
outcomes: on `Ok(None)` continue with the next packet; on
`Ok(Some(reason))` break, first sending a disconnect packet unless the
reason is by-application; on an error abort the loop, propagating the error
(`?`) without sending anything; an exhausted script means the loop is still
blocked reading. Returns the final counters, every packet sent, and how the
loop ended. -/
def session_loop (hK hE : Handler) :
    SessState → List (RResult InPacket) → SessState × List (List Nat) × LoopResult
  | st, [] => (st, [], .starved)
  | st, d :: rest =>
    match handle_packet hK hE st d with
    | (st1, sent, .ok none) =>
      let (st2, sent2, r) := session_loop hK hE st1 rest
      (st2, sent ++ sent2, r)
    | (st1, sent, .ok (some reason)) =>
      if reason = .byApplication then (st1, sent, .finished)
      else
        let (st2, dpkt) := disconnect st1 reason
        (st2, sent ++ [dpkt], .finished)
    | (st1, sent, .err e) => (st1, sent, .errored e)
    | (st1, sent, .panic) => (st1, sent, .panicked)

/-- What `client_ident.lines().next()` leaves of the line `read_line`
produced: everything before the trailing line feed, with one carriage
return before that line feed also stripped (`read_line` never yields an
interior line feed). -/
def stripLineEnd (l : List Char) : List Char :=
  match l.reverse with
  | '\n' :: '\r' :: r => r.reverse
  | '\n' :: r => r.reverse
  | _ => l

/-- The numeric value of a digit run. -/
def natOfDigits (l : List Char) : Nat :=
  l.foldl (fun a c => a * 10 + (c.toNat - 48)) 0

/-- The version token parsed as `str::parse::<f32>` parses it, modelled
exactly over the rationals for plain decimal tokens
`[+] digits [. digits]` (with at least one digit); other forms are
rejected. Floating-point rounding, which can only matter for tokens that
need more than about seven significant digits, is not modelled. -/
def parseVersion (tok : List Char) : Option ℚ :=
  let tok := match tok with
    | '+' :: t => t
    | t => t
  let ip := tok.takeWhile Char.isDigit
  let rest := tok.dropWhile Char.isDigit
  match rest with
  | [] => if ip.isEmpty then none else some (mkRat (natOfDigits ip) 1)
  | '.' :: fr =>
    if fr.all Char.isDigit ∧ ¬(ip.isEmpty ∧ fr.isEmpty) then
      some (mkRat (natOfDigits ip * 10 ^ fr.length + natOfDigits fr) (10 ^ fr.length))
    else none
  | _ => none

/-- `Session::ident_exchange` (src/session/mod.rs): send the server
identification line, read the client's line, extract the token after the
first '-' (`split('-').nth(1)`), parse it, and accept exactly the versions
in [2.0, 3.0); otherwise send a protocol-version-not-supported disconnect
and fail. An empty read (EOF) panics on `lines().next().unwrap()`. Returns
the packets sent and the stored client identification string. -/
def ident_exchange (server_ident : List Nat) (client_line : List Char) :
    List (List Nat) × RResult (List Char) :=
  if client_line.isEmpty then ([server_ident], .panic)
  else
    let client_ident := stripLineEnd client_line
    match (splitChar '-' client_ident)[1]? with
    | none =>
      ([server_ident, disconnect_packet .protocolVersionNotSupported],
        .err "Could not find protocol version in client ident string")
    | some tok =>
      match parseVersion tok with
      | none =>
        ([server_ident, disconnect_packet .protocolVersionNotSupported],
          .err "Could not parse protocol version")
      | some v =>
        if 2 ≤ v ∧ v < 3 then ([server_ident], .ok client_ident)
        else
          ([server_ident, disconnect_packet .protocolVersionNotSupported],
            .err "Unsupported protocol version")

/-- How `Session::start` ends. -/
inductive StartResult where
  | identFailed (e : String)
  | identPanicked
  | loop (r : LoopResult)
deriving DecidableEq, Repr

/-- `Session::start`: identification exchange first (a failure there
propagates out, the loop never runs), then the packet loop. The counters
start at zero and account the identification line in both directions. -/
def start (hK hE : Handler) (server_ident : List Nat) (client_line : List Char)
    (script : List (RResult InPacket)) : List (List Nat) × StartResult :=
  match ident_exchange server_ident client_line with
  | (sent, .err e) => (sent, .identFailed e)
  | (sent, .panic) => (sent, .identPanicked)
  | (sent, .ok _) =>
    let st0 : SessState := ⟨bump 0 server_ident.length, bump 0 client_line.length⟩
    let (_, sent2, r) := session_loop hK hE st0 script
    (sent ++ sent2, .loop r)

/-- One counter-relevant event in a session's life: a packet (or the
identification line) written with `send_packet`, or an inbound read of a
given wire byte length (a decoded packet, or the identification line). -/
inductive SeqEvent where
  | sent (packet : List Nat)
  | received (wire_len : Nat)
deriving Repr

/-- The effect of one event on the two sequence counters, exactly the
updates `send_packet`, `handle_packet` and `ident_exchange` perform. -/
def apply_event (st : SessState) : SeqEvent → SessState
  | .sent p => send_packet st p
  | .received n => ⟨st.out, bump st.inc n⟩

/-- The counters after a list of events, starting from a given state
(`Session::new` starts both at zero). -/
def run_events (st : SessState) (es : List SeqEvent) : SessState :=
  es.foldl apply_event st

/-- Total byte length of the packets sent in a list of events. -/
def sent_total : List SeqEvent → Nat
  | [] => 0
  | .sent p :: r => p.length + sent_total r
  | .received _ :: r => sent_total r

/-- Total wire byte length of the packets received in a list of events. -/
def received_total : List SeqEvent → Nat
  | [] => 0
  | .sent _ :: r => received_total r
  | .received n :: r => n + received_total r

/-- The reply `handle_packet` builds for an unhandled message type: an
unimplemented (3) message carrying the current incoming sequence number. -/
def unimplemented_reply (n : Nat) : List Nat :=
  build_packet 3 (u32_to_u8_array n)

theorem padOrTrim_length (n : Nat) (l : List Nat) : (padOrTrim n l).length = n := by
  simp [padOrTrim]
  omega

theorem get_payload_err_msg (packet : List Nat) (packet_length : Nat) (e : String)
    (h : get_payload packet packet_length = .err e) :
    e = "Did not decode entire packet" := by
  unfold get_payload at h
  repeat' split at h
  all_goals simp_all

/-- C9: for a `DecodedPacket` with an empty payload, `message_type` returns
an error rather than panicking, while `payload()` slices off the first byte
unconditionally: it panics on an empty payload and is total exactly on
non-empty ones, where it returns the tail. -/
theorem message_type_payload_totality :
    DecodedPacket.message_type ⟨[]⟩ = RResult.err "Payload is empty"
    ∧ DecodedPacket.payload ⟨[]⟩ = RResult.panic
    ∧ ∀ b t, DecodedPacket.payload ⟨b :: t⟩ = RResult.ok t := by
  refine ⟨rfl, rfl, fun b t => ?_⟩
  simp [DecodedPacket.payload, slice_from]

/-- C10: `get_payload` on a packet whose first byte is `padding_length`
panics exactly when `padding_length + 1` exceeds `packet_length`, the checked
`u32` computation `packet_length - padding_length - 1` underflowing; under
the precondition `padding_length + 1 ≤ packet_length` it never panics. -/
theorem get_payload_underflow_iff (padding_length : Nat) (rest : List Nat)
    (packet_length : Nat) :
    get_payload (padding_length :: rest) packet_length = RResult.panic
      ↔ packet_length < padding_length + 1 := by
  rcases Nat.lt_or_ge packet_length (padding_length + 1) with h | h
  · rcases Nat.lt_or_ge packet_length padding_length with h' | h'
    · have c1 : ¬ padding_length ≤ packet_length := by omega
      simp [get_payload, checked_sub, c1]
      omega
    · have c1 : padding_length ≤ packet_length := by omega
      have c2 : ¬ 1 ≤ packet_length - padding_length := by omega
      simp [get_payload, checked_sub, c1, c2]
      omega
  · have c1 : padding_length ≤ packet_length := by omega
    have c2 : 1 ≤ packet_length - padding_length := by omega
    have c3 : packet_length - padding_length - 1 ≤ packet_length - 1 := by omega
    have c4 : padding_length ≤ packet_length - 1 - (packet_length - padding_length - 1) := by
      omega
    have c5 : 1 ≤ packet_length := by omega
    have hbl : packet_length - 1 - (packet_length - padding_length - 1) - padding_length
        = 0 := by omega
    simp [get_payload, checked_sub, c1, c2, c3, c4, c5, hbl]
    omega

/-- C4: in unencrypted mode the decoder reads a 4-byte big-endian
`packet_length` and then exactly `packet_length` bytes, and splits them into
padding-length byte, payload and discarded padding; but on the stream
`[0,0,0,1,5]` (packet_length 1, padding_length 5), where the byte accounting
cannot consume exactly `packet_length` bytes, it panics on `u32` underflow
instead of returning the framing error the spec prescribes. A truncated
stream does fail with a framing error. -/
theorem decode_unencrypted_underflow_bug :
    decode_packet_unencrypted [0, 0, 0, 1, 5] = RResult.panic
    ∧ decode_packet_unencrypted
        ([0, 0, 0, 12] ++ [4, 65, 66, 67, 68, 69, 70, 71, 9, 9, 9, 9])
        = RResult.ok ⟨[65, 66, 67, 68, 69, 70, 71]⟩
    ∧ decode_packet_unencrypted [0, 0] = RResult.err "Failed reading packet_length" := by
  exact ⟨by decide, by decide, by decide⟩

/-- The example name-list field of the spec, as a length-prefixed byte
string. -/
def nl_example_bytes : List Nat :=
  [0, 0, 0, 35] ++ (String.toList "diffie-hellman-group14-sha1,ssh-rsa").map Char.toNat

/-- C5: `next_name_list` decodes the length-prefixed field
"diffie-hellman-group14-sha1,ssh-rsa" to the ordered two-element list, but a
zero-length field (L = 0) decodes to the one-element list containing the
empty string - `"".split(',')` yields `[""]` - not to the empty list the
claim (and RFC 4251 § 5, cited in the source) requires. -/
theorem name_list_empty_field_bug :
    (PayloadReader.next_name_list nl_example_bytes).fst
      = RResult.ok [String.toList "diffie-hellman-group14-sha1", String.toList "ssh-rsa"]
    ∧ (PayloadReader.next_name_list [0, 0, 0, 0]).fst = RResult.ok [[]]
    ∧ ([[]] : List (List Char)) ≠ [] := by
  exact ⟨by decide, by decide, by decide⟩

/-- C8 (amended): no `PayloadReader` extraction ever reads out of bounds,
but only the 4-byte length reads fail when the payload is exhausted: with
fewer than 4 bytes left `next_string` is a decode error (and exactly then),
and `next_name_list` is a decode error exactly when fewer than 4 bytes
remain or the UTF-8 decoding of its (clamped) value bytes fails;
`next_byte` returns `none` exactly at the end; `next_n_bytes` and the value
parts of `next_string` and `next_name_list` clamp to the bytes that remain,
silently returning a truncated result when the requested or declared length
reaches past the end. -/
theorem reader_no_overread_amended :
    (∀ (p : List Nat) (n : Nat),
      ((PayloadReader.next_n_bytes n p).fst).length = min n p.length)
    ∧ (∀ p : List Nat, (PayloadReader.next_byte p).fst = none ↔ p = [])
    ∧ (∀ p : List Nat,
        (∃ e, (PayloadReader.next_string p).fst = RResult.err e) ↔ p.length < 4)
    ∧ (∀ p : List Nat, 4 ≤ p.length →
        (PayloadReader.next_string p).fst
          = RResult.ok ((p.drop 4).take (be32val (p.take 4))))
    ∧ (∀ p : List Nat, 4 ≤ p.length → (p.drop 4).length ≤ be32val (p.take 4) →
        (PayloadReader.next_string p).fst = RResult.ok (p.drop 4))
    ∧ (∀ p : List Nat,
        (∃ e, (PayloadReader.next_name_list p).fst = RResult.err e)
          ↔ (p.length < 4
            ∨ utf8Decode ((p.drop 4).take (be32val (p.take 4))) = none))
    ∧ (∀ (p : List Nat) (cs : List Char), 4 ≤ p.length →
        utf8Decode ((p.drop 4).take (be32val (p.take 4))) = some cs →
        (PayloadReader.next_name_list p).fst = RResult.ok (splitChar ',' cs))
    ∧ (∀ (p : List Nat) (cs : List Char), 4 ≤ p.length →
        (p.drop 4).length ≤ be32val (p.take 4) → utf8Decode (p.drop 4) = some cs →
        (PayloadReader.next_name_list p).fst = RResult.ok (splitChar ',' cs)) := by
  refine ⟨?_, ?_, ?_, ?_, ?_, ?_, ?_, ?_⟩
  · intro p n
    simp [PayloadReader.next_n_bytes]
  · intro p
    cases p <;> simp [PayloadReader.next_byte]
  · intro p
    by_cases h : p.length < 4
    · have h4 : (p.take 4).length ≠ 4 := by simp; omega
      have h4m : ¬ (min 4 p.length = 4) := by omega
      simp [PayloadReader.next_string, u8_array_to_u32, h4, h4m]
      omega
    · have h4 : (p.take 4).length = 4 := by simp; omega
      have h4m : min 4 p.length = 4 := by omega
      simp [PayloadReader.next_string, u8_array_to_u32, h4, h4m]
      omega
  · intro p h
    have h4 : (p.take 4).length = 4 := by simp; omega
    have h4m : min 4 p.length = 4 := by omega
    simp [PayloadReader.next_string, u8_array_to_u32, h4, h4m]
  · intro p h hlen
    have h4 : (p.take 4).length = 4 := by simp; omega
    have h4m : min 4 p.length = 4 := by omega
    simp [PayloadReader.next_string, u8_array_to_u32, h4, h4m,
      List.take_of_length_le hlen]
  · intro p
    by_cases h : p.length < 4
    · have h4 : (p.take 4).length ≠ 4 := by simp; omega
      have h4m : ¬ (min 4 p.length = 4) := by omega
      simp [PayloadReader.next_name_list, u8_array_to_u32, h4, h4m]
      exact Or.inl h
    · have h4 : (p.take 4).length = 4 := by simp; omega
      have h4m : min 4 p.length = 4 := by omega
      rcases hu : utf8Decode ((p.drop 4).take (be32val (p.take 4))) with _ | cs
      · simp [PayloadReader.next_name_list, u8_array_to_u32, h4, h4m, hu]
      · simp [PayloadReader.next_name_list, u8_array_to_u32, h4, h4m, hu]
        omega
  · intro p cs h hu
    have h4 : (p.take 4).length = 4 := by simp; omega
    have h4m : min 4 p.length = 4 := by omega
    simp [PayloadReader.next_name_list, u8_array_to_u32, h4, h4m, hu]
  · intro p cs h hlen hu
    have h4 : (p.take 4).length = 4 := by simp; omega
    have h4m : min 4 p.length = 4 := by omega
    simp [PayloadReader.next_name_list, u8_array_to_u32, h4, h4m,
      List.take_of_length_le hlen, hu]

/-- C8 (counterexample): `next_string` on the payload `[0,0,0,5]`, whose
length field declares five bytes where none remain, silently succeeds with
the empty byte string instead of failing. -/
theorem reader_truncation_cex :
    (PayloadReader.next_string [0, 0, 0, 5]).fst = RResult.ok []
    ∧ ¬ ∃ e, (PayloadReader.next_string [0, 0, 0, 5]).fst = RResult.err e := by
  constructor
  · decide
  · rintro ⟨e, h⟩
    rw [show (PayloadReader.next_string [0, 0, 0, 5]).fst = RResult.ok [] by decide] at h
    cases h

/-- C8 (witness): the amended theorem applied at the payload `[0,0,0,5]`,
whose length field declares five value bytes where none remain: both
`next_string` and `next_name_list` silently succeed on the empty
remainder. -/
theorem reader_no_overread_witness :
    (PayloadReader.next_string [0, 0, 0, 5]).fst = RResult.ok []
    ∧ (PayloadReader.next_name_list [0, 0, 0, 5]).fst = RResult.ok [[]] := by
  constructor
  · simpa using reader_no_overread_amended.2.2.2.2.1 [0, 0, 0, 5]
      (by decide) (by decide)
  · simpa using reader_no_overread_amended.2.2.2.2.2.2.2 [0, 0, 0, 5] []
      (by decide) (by decide) (by decide)

theorem run_events_acc (es : List SeqEvent) :
    ∀ o i, o < u32Mod → i < u32Mod →
      run_events ⟨o, i⟩ es
        = ⟨(o + sent_total es) % u32Mod, (i + received_total es) % u32Mod⟩ := by
  induction es with
  | nil =>
    intro o i ho hi
    simp [run_events, sent_total, received_total, Nat.mod_eq_of_lt ho,
      Nat.mod_eq_of_lt hi]
  | cons e r ih =>
    intro o i ho hi
    have hm : 0 < u32Mod := by norm_num [u32Mod]
    cases e with
    | sent p =>
      have h1 : bump o p.length < u32Mod := Nat.mod_lt _ hm
      have step : run_events ⟨o, i⟩ (.sent p :: r)
          = run_events ⟨bump o p.length, i⟩ r := rfl
      rw [step, ih _ _ h1 hi]
      simp only [sent_total, received_total, SessState.mk.injEq, bump, u32Mod]
      constructor <;> first | trivial | omega
    | received n =>
      have h1 : bump i n < u32Mod := Nat.mod_lt _ hm
      have step : run_events ⟨o, i⟩ (.received n :: r)
          = run_events ⟨o, bump i n⟩ r := rfl
      rw [step, ih _ _ ho h1]
      simp only [sent_total, received_total, SessState.mk.injEq, bump, u32Mod]
      constructor <;> first | trivial | omega

/-- C3: starting from the zero counters of `Session::new`, after any list of
send and receive events `outgoing_packet_sequence` is the sum of the sent
packets' byte lengths mod 2^32 and `incoming_packet_sequence` is the sum of
the received wire byte lengths mod 2^32. -/
theorem sequence_counters_sum (es : List SeqEvent) :
    run_events ⟨0, 0⟩ es = ⟨sent_total es % u32Mod, received_total es % u32Mod⟩ := by
  simpa using run_events_acc es 0 0 (by norm_num [u32Mod]) (by norm_num [u32Mod])

/-- C2 (amended): for a well-formed inbound packet whose message-type byte
is a recognised `MessageType` value that the dispatcher does not handle
(neither disconnect, ignore, unimplemented, debug, kexinit nor ECDH init),
`handle_packet` sends exactly one unimplemented reply carrying the incoming
sequence counter as updated by the offending packet, reports no disconnect,
and the read loop continues with the remaining packets; a message-type byte
outside the `MessageType` values instead fails `message_type()`, which
terminates the connection. -/
theorem unimplemented_reply_amended (hK hE : Handler) (st : SessState)
    (b : Nat) (tl : List Nat) (wl : Nat) (rest : List (RResult InPacket))
    (hmem : b ∈ msg_type_values) (hun : b ∉ [1, 2, 3, 4, 20, 30]) :
    handle_packet hK hE st (.ok ⟨b :: tl, wl⟩)
      = (send_packet ⟨st.out, bump st.inc wl⟩ (unimplemented_reply (bump st.inc wl)),
         [unimplemented_reply (bump st.inc wl)], .ok none)
    ∧ session_loop hK hE st (.ok ⟨b :: tl, wl⟩ :: rest)
      = ((session_loop hK hE
            (send_packet ⟨st.out, bump st.inc wl⟩ (unimplemented_reply (bump st.inc wl)))
            rest).1,
         unimplemented_reply (bump st.inc wl)
           :: (session_loop hK hE
                (send_packet ⟨st.out, bump st.inc wl⟩
                  (unimplemented_reply (bump st.inc wl))) rest).2.1,
         (session_loop hK hE
            (send_packet ⟨st.out, bump st.inc wl⟩ (unimplemented_reply (bump st.inc wl)))
            rest).2.2) := by
  have hb : b = 21 ∨ b = 31 := by
    simp [msg_type_values] at hmem
    simp at hun
    omega
  have h1 : handle_packet hK hE st (.ok ⟨b :: tl, wl⟩)
      = (send_packet ⟨st.out, bump st.inc wl⟩ (unimplemented_reply (bump st.inc wl)),
         [unimplemented_reply (bump st.inc wl)], .ok none) := by
    rcases hb with rfl | rfl <;>
      simp [handle_packet, DecodedPacket.message_type, u8_to_MessageType,
        msg_type_values, unimplemented_reply]
  refine ⟨h1, ?_⟩
  rcases hsl : session_loop hK hE
      (send_packet ⟨st.out, bump st.inc wl⟩ (unimplemented_reply (bump st.inc wl)))
      rest with ⟨sta, sentb, rc⟩
  simp [session_loop, h1, hsl]

/-- C2 (witness): the amended theorem applied at a newkeys (21) packet in
the fresh session state. -/
theorem unimplemented_reply_witness :
    handle_packet trivial_handler trivial_handler ⟨0, 0⟩ (.ok ⟨[21], 16⟩)
      = (⟨16, 16⟩, [unimplemented_reply 16], .ok none) := by
  have h := (unimplemented_reply_amended trivial_handler trivial_handler ⟨0, 0⟩
    21 [] 16 [] (by decide) (by decide)).1
  simpa [bump, u32Mod, send_packet, unimplemented_reply] using h

/-- C2 (counterexample): a well-formed packet whose message-type byte 200 is
not one the dispatcher handles does not produce an unimplemented reply; its
`message_type()` fails, the error aborts the read loop and the connection
terminates with nothing sent. -/
theorem unimplemented_reply_claim_cex :
    session_loop trivial_handler trivial_handler ⟨0, 0⟩ [.ok ⟨[200], 5⟩]
      = (⟨0, 5⟩, [], .errored "Failed to cast 200 into MessageType")
    ∧ (200 : Nat) ∉ [1, 2, 3, 4, 20, 30] := by
  exact ⟨by decide, by decide⟩

/-- C7 (amended): a peer-initiated disconnect packet (message type 1) ends
the read loop without any reply; an error surfaced while handling a packet
aborts the loop and propagates out of `Session::start` without any
disconnect packet being sent from the loop; `handle_packet` never reports
any disconnect reason other than by-application, so the loop branch that
would send a disconnect packet is unreachable; and `Session::disconnect`
builds exactly the packet carrying the reason code, an empty description
and the language tag "en". -/
theorem session_loop_disconnect_amended :
    (∀ (hK hE : Handler) (st : SessState) (tl : List Nat) (wl : Nat)
        (rest : List (RResult InPacket)),
      session_loop hK hE st (.ok ⟨1 :: tl, wl⟩ :: rest)
        = (⟨st.out, bump st.inc wl⟩, [], .finished))
    ∧ (∀ (hK hE : Handler) (st : SessState) (e : String)
        (rest : List (RResult InPacket)),
      session_loop hK hE st (.err e :: rest) = (st, [], .errored e))
    ∧ (∀ (hK hE : Handler) (st : SessState) (d : RResult InPacket)
        (r : DisconnectReason),
      (handle_packet hK hE st d).2.2 = .ok (some r) → r = .byApplication)
    ∧ (∀ r : DisconnectReason,
      disconnect_packet r
        = build_packet 1 ([reason_code r] ++ encode_string [] ++ encode_string [101, 110])) := by
  refine ⟨?_, ?_, ?_, fun r => rfl⟩
  · intro hK hE st tl wl rest
    simp [session_loop, handle_packet, DecodedPacket.message_type,
      u8_to_MessageType, msg_type_values]
  · intro hK hE st e rest
    simp [session_loop, handle_packet]
  · intro hK hE st d r h
    unfold handle_packet at h
    repeat' split at h
    all_goals simp_all
    · rename_i dd pkt xx pl heq hpl
      rcases hmk : hK ⟨st.out, bump st.inc pkt.wire_len⟩ pkt with ⟨st2, sent2, u⟩
      rw [hmk] at h
      rcases u <;> simp_all
    · rename_i dd pkt xx pl heq hpl
      rcases hmk : hE ⟨st.out, bump st.inc pkt.wire_len⟩ pkt with ⟨st2, sent2, u⟩
      rw [hmk] at h
      rcases u <;> simp_all

/-- C7 (witness): the amended theorem applied to an error script and to a
concrete peer-disconnect packet. -/
theorem session_loop_disconnect_witness :
    session_loop trivial_handler trivial_handler ⟨0, 0⟩
        [.err "MAC verification failed"]
      = (⟨0, 0⟩, [], .errored "MAC verification failed")
    ∧ DisconnectReason.byApplication = .byApplication := by
  refine ⟨session_loop_disconnect_amended.2.1 trivial_handler trivial_handler
    ⟨0, 0⟩ "MAC verification failed" [], ?_⟩
  exact session_loop_disconnect_amended.2.2.1 trivial_handler trivial_handler
    ⟨0, 0⟩ (.ok ⟨[1], 3⟩) .byApplication (by decide)

/-- C7 (counterexample): an error surfaced while handling a packet aborts
the loop with nothing sent at all - in particular no disconnect packet
carrying the reason, an empty description and "en" - contradicting the
claim that such a packet is sent before the connection terminates. -/
theorem loop_error_no_disconnect_cex :
    (session_loop trivial_handler trivial_handler ⟨0, 0⟩ [.err "boom"]).2.2
        = LoopResult.errored "boom"
    ∧ (session_loop trivial_handler trivial_handler ⟨0, 0⟩ [.err "boom"]).2.1 = [] := by
  exact ⟨by decide, by decide⟩

/-- C6: during identification exchange the session extracts the token after
the first '-' of the client line and accepts exactly when it parses as a
number in [2.0, 3.0), storing the stripped client identification string;
in every other case (token missing, unparseable or out of range) it sends a
disconnect with reason protocol-version-not-supported and fails, so that
`Session::start` terminates; "SSH-2.0-OpenSSH_9.0" is accepted while
"SSH-1.99-x" and "SSH-3.0-x" are rejected. -/
theorem ident_version_gate :
    (∀ (sid : List Nat) (c : Char) (cs : List Char),
      (ident_exchange sid (c :: cs)).2 = RResult.ok (stripLineEnd (c :: cs))
        ↔ ∃ t v, (splitChar '-' (stripLineEnd (c :: cs)))[1]? = some t
            ∧ parseVersion t = some v ∧ 2 ≤ v ∧ v < 3)
    ∧ (∀ (sid : List Nat) (c : Char) (cs : List Char),
      (ident_exchange sid (c :: cs)).2 = RResult.ok (stripLineEnd (c :: cs))
      ∨ ((ident_exchange sid (c :: cs)).1
          = [sid, disconnect_packet .protocolVersionNotSupported]
        ∧ ∃ e, (ident_exchange sid (c :: cs)).2 = RResult.err e))
    ∧ (∀ sid, ident_exchange sid (String.toList "SSH-2.0-OpenSSH_9.0\r\n")
        = ([sid], RResult.ok (String.toList "SSH-2.0-OpenSSH_9.0")))
    ∧ (∀ sid, ident_exchange sid (String.toList "SSH-1.99-x\r\n")
        = ([sid, disconnect_packet .protocolVersionNotSupported],
           RResult.err "Unsupported protocol version"))
    ∧ (∀ sid, ident_exchange sid (String.toList "SSH-3.0-x\r\n")
        = ([sid, disconnect_packet .protocolVersionNotSupported],
           RResult.err "Unsupported protocol version")) := by
  refine ⟨?_, ?_, fun sid => rfl, fun sid => rfl, fun sid => rfl⟩
  · intro sid c cs
    rcases h1 : (splitChar '-' (stripLineEnd (c :: cs)))[1]? with _ | tok
    · simp [ident_exchange, h1]
    · rcases h2 : parseVersion tok with _ | v
      · simp [ident_exchange, h1, h2]
      · by_cases h3 : 2 ≤ v ∧ v < 3
        · simp [ident_exchange, h1, h2, h3]
        · simp [ident_exchange, h1, h2, h3]
  · intro sid c cs
    rcases h1 : (splitChar '-' (stripLineEnd (c :: cs)))[1]? with _ | tok
    · simp [ident_exchange, h1]
    · rcases h2 : parseVersion tok with _ | v
      · simp [ident_exchange, h1, h2]
      · by_cases h3 : 2 ≤ v ∧ v < 3
        · simp [ident_exchange, h1, h2, h3]
        · simp [ident_exchange, h1, h2, h3]

/-- C1: in encrypted mode, after decrypting, the decoder reads a MAC-sized
trailer and verifies the MAC over the sequence number followed by the full
decrypted packet encoded as a length-prefixed byte string - which, the body
having exactly `packet_length` bytes, is precisely the length field,
padding-length byte, payload and padding (second conjunct); whenever that
verification fails, decoding returns the integrity error, and it returns
that error only then (first conjunct). -/
theorem encrypted_mac_full_packet (block_size mac_len : Nat)
    (upd : List Nat → List Nat → List Nat × List Nat) (dst0 : List Nat)
    (macfn : List Nat → List Nat → List Nat) (ikey : List Nat) (seq : Nat)
    (stream : List Nat)
    (h4 : 4 ≤ block_size)
    (hpl : block_size - 4 ≤ enc_packet_len block_size upd dst0 stream)
    (hs : block_size + (enc_packet_len block_size upd dst0 stream - (block_size - 4))
        + mac_len ≤ stream.length) :
    (decode_packet_encrypted block_size mac_len upd dst0 macfn ikey seq stream
        = RResult.err "MAC verification failed"
      ↔ macfn ikey (u32_to_u8_array seq
            ++ encode_string (enc_body block_size upd dst0 stream))
          ≠ enc_tag block_size mac_len upd dst0 stream)
    ∧ encode_string (enc_body block_size upd dst0 stream)
        = u32_to_u8_array (enc_packet_len block_size upd dst0 stream)
          ++ enc_body block_size upd dst0 stream := by
  have hlenbody : (enc_body block_size upd dst0 stream).length
      = enc_packet_len block_size upd dst0 stream := by
    have hfb : (fb_dec block_size upd dst0 stream).length = block_size :=
      padOrTrim_length _ _
    unfold enc_body
    simp [padOrTrim_length, hfb]
    omega
  constructor
  · unfold enc_packet_len fb_dec at hpl hs
    have hd1 : (stream.drop block_size).length = stream.length - block_size := by
      simp
    have hd2 : ((stream.drop block_size).drop
        (be32val ((padOrTrim block_size (upd dst0 (stream.take block_size)).fst).take 4)
          - (block_size - 4))).length
        = stream.length - block_size
          - (be32val ((padOrTrim block_size (upd dst0 (stream.take block_size)).fst).take 4)
            - (block_size - 4)) := by
      simp
      omega
    simp only [decode_packet_encrypted, enc_body, enc_tag, enc_packet_len, fb_dec]
    split_ifs with g1 g2 g3 g4 g5 g6
    · exact absurd g1 (by omega)
    · exact absurd g2 (by omega)
    · exact absurd g3 (by omega)
    · exact absurd g4 (by omega)
    · exact absurd g5 (by omega)
    · have hmeq : macfn ikey (u32_to_u8_array seq
          ++ encode_string
            ((padOrTrim block_size (upd dst0 (stream.take block_size)).fst).drop 4
              ++ padOrTrim
                (be32val ((padOrTrim block_size (upd dst0 (stream.take block_size)).fst).take 4)
                  - (block_size - 4))
                (upd (upd dst0 (stream.take block_size)).snd
                  ((stream.drop block_size).take
                    (be32val ((padOrTrim block_size (upd dst0 (stream.take block_size)).fst).take 4)
                      - (block_size - 4)))).fst))
          = ((stream.drop block_size).drop
              (be32val ((padOrTrim block_size (upd dst0 (stream.take block_size)).fst).take 4)
                - (block_size - 4))).take mac_len := by
        simpa [verify_mac] using g6
      constructor
      · intro h
        rcases hgp : get_payload
            ((padOrTrim block_size (upd dst0 (stream.take block_size)).fst).drop 4
              ++ padOrTrim
                (be32val ((padOrTrim block_size (upd dst0 (stream.take block_size)).fst).take 4)
                  - (block_size - 4))
                (upd (upd dst0 (stream.take block_size)).snd
                  ((stream.drop block_size).take
                    (be32val ((padOrTrim block_size (upd dst0 (stream.take block_size)).fst).take 4)
                      - (block_size - 4)))).fst)
            (be32val ((padOrTrim block_size (upd dst0 (stream.take block_size)).fst).take 4))
            with p | e | _ <;> rw [hgp] at h
        · cases h
        · have he := get_payload_err_msg _ _ _ hgp
          rw [RResult.err.injEq] at h
          rw [h] at he
          exact absurd he (by decide)
        · cases h
      · intro hne
        exact absurd hmeq hne
    · have hne : macfn ikey (u32_to_u8_array seq
          ++ encode_string
            ((padOrTrim block_size (upd dst0 (stream.take block_size)).fst).drop 4
              ++ padOrTrim
                (be32val ((padOrTrim block_size (upd dst0 (stream.take block_size)).fst).take 4)
                  - (block_size - 4))
                (upd (upd dst0 (stream.take block_size)).snd
                  ((stream.drop block_size).take
                    (be32val ((padOrTrim block_size (upd dst0 (stream.take block_size)).fst).take 4)
                      - (block_size - 4)))).fst))
          ≠ ((stream.drop block_size).drop
              (be32val ((padOrTrim block_size (upd dst0 (stream.take block_size)).fst).take 4)
                - (block_size - 4))).take mac_len := by
        intro hcon
        exact g6 (by simp [verify_mac, hcon])
      simpa using hne
  · unfold encode_string
    rw [hlenbody]

/-- C1 (witness): the theorem applied with block size 8, a one-byte MAC, an
identity decrypter and a length-valued MAC function on a stream whose
trailer does not match the recomputed MAC. -/
theorem encrypted_mac_full_packet_witness :
    decode_packet_encrypted 8 1 (fun st inp => (inp, st)) []
        (fun _ m => [m.length % 256]) [] 0
        [0, 0, 0, 12, 4, 65, 66, 67, 68, 69, 70, 71, 9, 9, 9, 9, 99]
      = RResult.err "MAC verification failed" := by
  exact (encrypted_mac_full_packet 8 1 (fun st inp => (inp, st)) []
    (fun _ m => [m.length % 256]) [] 0
    [0, 0, 0, 12, 4, 65, 66, 67, 68, 69, 70, 71, 9, 9, 9, 9, 99]
    (by decide) (by decide) (by decide)).1.mpr (by decide)
